import Mathlib

/-!
Shallow embedding of `clippy_lints/src/map_unit_fn.rs`: the
`OPTION_MAP_UNIT_FN` / `RESULT_MAP_UNIT_FN` lint, which flags
expression-statements of the form `x.map(f)` where `x` is an `Option` or
`Result` and `f` is a unit-returning function or closure, and suggests an
`if let` rewrite.

The external compiler interfaces (the type system's type descriptors, the
source map, the macro-expansion predicate) are embedded as explicit data:
every expression node carries its resolved type and its span, and a
`Context` record carries the source-text accessor and the
macro-origin predicate.
-/

namespace MapUnitFn

/-- A source span.  Spans are opaque handles into the original source; we
model them as natural numbers.  Snippet extraction goes through the
context's source map. -/
abbrev Span := Nat

/-- Embedding of the fragment of `rustc::ty::TyKind` (`ty.sty`) that
`map_unit_fn.rs` inspects:
* `tuple fields` — `ty::Tuple(slice)` with its field types;
* `never` — `ty::Never`;
* `fnDef sig` — `ty::FnDef(id, _)`; `sig` is `some output` when
  `cx.tcx.fn_sig(id).no_bound_vars()` succeeds (a concrete, non-generic
  signature with declared return type `output`), and `none` when the
  signature still has bound type variables;
* `adt path` — a nominal type with its fully qualified path (used by
  `match_type` against `paths::OPTION` / `paths::RESULT`);
* `other` — every other kind of type. -/
inductive Ty : Type where
  | tuple (fields : List Ty)
  | never
  | fnDef (sig : Option Ty)
  | adt (path : List String)
  | other

/-- A pattern (`hir::Pat`): only its span is consumed by this lint. -/
structure Pat : Type where
  span : Span
deriving DecidableEq, Repr

/-- A closure-body argument (`hir::Arg`), carrying its bound pattern. -/
structure Arg : Type where
  pat : Pat
deriving DecidableEq, Repr

mutual
/-- Embedding of `hir::Expr`: each constructor carries the expression's
span and its resolved type (`cx.tables.expr_ty`), then the fields of the
corresponding `hir::ExprKind` that the lint consumes:
* `call` — `ExprKind::Call(func, args)`;
* `methodCall` — `ExprKind::MethodCall(path, _, args)` with the method
  name and the argument list (receiver first);
* `block` — `ExprKind::Block(block, _)` with the block's statement list
  and optional trailing expression;
* `closure` — `ExprKind::Closure(_, decl, body_id, _, _)`: `numInputs` is
  `decl.inputs.len()`, `args` are the body's arguments (whose patterns
  `iter_input_pats` yields), `body` is the body's value expression;
* `fieldAcc` — `ExprKind::Field(..)`;
* `pathExpr` — `ExprKind::Path(..)`;
* `other` — every other expression kind. -/
inductive Expr : Type where
  | call (span : Span) (ty : Ty) (func : Expr) (args : List Expr)
  | methodCall (span : Span) (ty : Ty) (name : String) (args : List Expr)
  | block (span : Span) (ty : Ty) (stmts : List Stmt) (tail : Option Expr)
  | closure (span : Span) (ty : Ty) (numInputs : Nat) (args : List Arg) (body : Expr)
  | fieldAcc (span : Span) (ty : Ty)
  | pathExpr (span : Span) (ty : Ty)
  | other (span : Span) (ty : Ty)

/-- Embedding of `hir::Stmt`: a span and a statement kind. -/
inductive Stmt : Type where
  | mk (span : Span) (node : StmtKind)

/-- Embedding of `hir::StmtKind`:
* `localStmt localSpan` — `StmtKind::Local(local)`, carrying the span of
  the local declaration itself (`local.span`);
* `exprStmt e` — `StmtKind::Expr(e)`, an expression-statement with no
  trailing semicolon;
* `semi e` — `StmtKind::Semi(e)`, a semicolon-terminated statement;
* `item` — `StmtKind::Item(..)`. -/
inductive StmtKind : Type where
  | localStmt (localSpan : Span)
  | exprStmt (e : Expr)
  | semi (e : Expr)
  | item
end

/-- The span of an expression (`expr.span`). -/
def Expr.span : Expr → Span
  | .call sp _ _ _ => sp
  | .methodCall sp _ _ _ => sp
  | .block sp _ _ _ => sp
  | .closure sp _ _ _ _ => sp
  | .fieldAcc sp _ => sp
  | .pathExpr sp _ => sp
  | .other sp _ => sp

/-- The resolved type of an expression (`cx.tables.expr_ty(expr)`). -/
def Expr.ty : Expr → Ty
  | .call _ t _ _ => t
  | .methodCall _ t _ _ => t
  | .block _ t _ _ => t
  | .closure _ t _ _ _ => t
  | .fieldAcc _ t => t
  | .pathExpr _ t => t
  | .other _ t => t

/-- The span of a statement (`stmt.span`). -/
def Stmt.span : Stmt → Span
  | .mk sp _ => sp

/-- The kind of a statement (`stmt.node`). -/
def Stmt.node : Stmt → StmtKind
  | .mk _ n => n

/-- Modelled from the spec: the macro-origin predicate and the
source-text accessor are external interfaces supplied by the host
(`crate::utils::in_macro` and `crate::utils::snippet` are not under
`src/`).  `fromExpansion` reports whether a span originated from macro
expansion; `snippetOf` returns the literal source text a span covers, or
`none` when extraction fails. -/
structure Context : Type where
  fromExpansion : Span → Bool
  snippetOf : Span → Option String

/-- Modelled from the spec: `crate::utils::snippet` — "given a span,
return the literal text it covers (or an explicit failure indicator)";
snippet extraction that fails "degrades to a placeholder character". -/
def snippet (ctx : Context) (sp : Span) (fallback : String) : String :=
  (ctx.snippetOf sp).getD fallback

/-- Modelled from the spec: `crate::utils::paths::OPTION`, the fully
qualified path of the optional-container shape. -/
def OPTION_PATH : List String := ["core", "option", "Option"]

/-- Modelled from the spec: `crate::utils::paths::RESULT`, the fully
qualified path of the result-container shape. -/
def RESULT_PATH : List String := ["core", "result", "Result"]

/-- Modelled from the spec: `crate::utils::match_type` — "a
structural/nominal match against two known external container shapes"
(by fully qualified name). -/
def match_type (ty : Ty) (path : List String) : Bool :=
  match ty with
  | .adt p => p = path
  | _ => false

/-- The two lint categories declared by `declare_lint_pass!(MapUnit =>
[OPTION_MAP_UNIT_FN, RESULT_MAP_UNIT_FN])`. -/
inductive Lint : Type where
  | optionMapUnitFn
  | resultMapUnitFn
deriving DecidableEq, Repr

/-- `rustc_errors::Applicability`, restricted to the two tags this lint
uses. -/
inductive Applicability : Type where
  | machineApplicable
  | unspecified
deriving DecidableEq, Repr

/-- The structured diagnostic produced by `span_lint_and_then` plus the
inner `db.span_suggestion` call: lint category, primary (anchor) span,
message, the span the suggestion replaces, the replacement text, and the
applicability tag. -/
structure Diag : Type where
  lint : Lint
  anchorSpan : Span
  msg : String
  suggSpan : Span
  sugg : String
  applicability : Applicability
deriving DecidableEq, Repr

/-- `fn is_unit_type(ty: Ty) -> bool` (`map_unit_fn.rs:79`). -/
def is_unit_type : Ty → Bool
  | .tuple fields => fields.isEmpty
  | .never => true
  | _ => false

/-- `fn is_unit_function(cx, expr) -> bool` (`map_unit_fn.rs:87`): the
expression's type must be a `FnDef` whose signature has no bound type
variables and whose output type is unit. -/
def is_unit_function (expr : Expr) : Bool :=
  match expr.ty with
  | .fnDef (some output) => is_unit_type output
  | _ => false

/-- `fn is_unit_expression(cx, expr) -> bool` (`map_unit_fn.rs:98`). -/
def is_unit_expression (expr : Expr) : Bool :=
  is_unit_type expr.ty

/-- `fn reduce_unit_expression(cx, expr) -> Option<Span>`
(`map_unit_fn.rs:106`): given an expression that evaluates to `()` or
`!`, recursively remove useless braces and semicolons until it is
suitable for inclusion in the suggestion template. -/
def reduce_unit_expression (expr : Expr) : Option Span :=
  if !is_unit_expression expr then none
  else
    match expr with
    | .call sp _ _ _ => some sp
    | .methodCall sp _ _ _ => some sp
    | .block _ _ stmts tail =>
      match stmts, tail with
      | [], some inner =>
        -- reduce `{ X }` to `X`
        reduce_unit_expression inner
      | [Stmt.mk stmtSp node], none =>
        -- reduce `{ X; }` to `X` or `X;`
        (match node with
         | .localStmt localSpan => some localSpan
         | .exprStmt e => some e.span
         | .semi _ => some stmtSp
         | .item => none)
      | _, _ => none
    | _ => none

/-- `fn unit_closure(cx, expr) -> Option<(&Arg, &Expr)>`
(`map_unit_fn.rs:147`): the expression must be a closure with exactly one
declared input whose body expression is unit; returns the first input
pattern's `Arg` and the body expression. -/
def unit_closure (expr : Expr) : Option (Arg × Expr) :=
  match expr with
  | .closure _ _ numInputs args body =>
    if numInputs = 1 then
      if is_unit_expression body then
        match args.head? with
        | some binding => some (binding, body)
        | none => none
      else none
    else none
  | _ => none

/-- `fn let_binding_name(cx, var_arg) -> String` (`map_unit_fn.rs:170`):
`x.field` becomes `x_field`, a bare path `y` becomes `_y`, anything else
becomes `_`. -/
def let_binding_name (ctx : Context) (var_arg : Expr) : String :=
  match var_arg with
  | .fieldAcc sp _ => (snippet ctx sp "_").replace "." "_"
  | .pathExpr sp _ => "_" ++ snippet ctx sp ""
  | _ => "_"

/-- `fn suggestion_msg(function_type, map_type) -> String`
(`map_unit_fn.rs:178`). -/
def suggestion_msg (function_type map_type : String) : String :=
  s!"called `map(f)` on an {map_type} value where `f` is a unit {function_type}"

/-- Modelled from the spec: `crate::utils::method_chain_args` —
"recognizing a specific named method invocation at the end of a (possibly
longer) method chain and extracting its receiver and argument
expressions".  Walks the chain from the outermost call inwards through
the reversed name list, collecting each matched call's argument list
(receiver first); the result lists the argument lists in the order of the
requested names. -/
def method_chain_args_go : Expr → List String → List (List Expr) → Option (List (List Expr))
  | _, [], acc => some acc
  | current, name :: rest, acc =>
    match current with
    | .methodCall _ _ m args =>
      if m = name then
        match args with
        | receiver :: _ => method_chain_args_go receiver rest (args :: acc)
        | [] => none
      else none
    | _ => none

/-- Modelled from the spec: entry point of the chain-argument matcher
(see `method_chain_args_go`). -/
def method_chain_args (expr : Expr) (methods : List String) : Option (List (List Expr)) :=
  method_chain_args_go expr methods.reverse []

/-- `fn lint_map_unit_fn(cx, stmt, expr, map_args)` (`map_unit_fn.rs:185`):
classify the receiver as `Option` or `Result` (anything else: no
diagnostic); then either the named-function case (hint-only suggestion
`if let Variant(name) = recv { fn(...) }`) or the closure case
(machine-applicable suggestion with the reduced body snippet when
reduction succeeds, hint-only elided-body suggestion otherwise). -/
def lint_map_unit_fn (ctx : Context) (stmt : Stmt) (expr : Expr) (map_args : List Expr) :
    Option Diag := do
  let var_arg ← map_args[0]?
  let (map_type, variant, lint) ←
    if match_type var_arg.ty OPTION_PATH then
      some ("Option", "Some", Lint.optionMapUnitFn)
    else if match_type var_arg.ty RESULT_PATH then
      some ("Result", "Ok", Lint.resultMapUnitFn)
    else none
  let fn_arg ← map_args[1]?
  if is_unit_function fn_arg then
    let msg := suggestion_msg "function" map_type
    let bindingName := let_binding_name ctx var_arg
    let recvSnip := snippet ctx var_arg.span "_"
    let fnSnip := snippet ctx fn_arg.span "_"
    some { lint := lint, anchorSpan := expr.span, msg := msg,
           suggSpan := stmt.span,
           sugg := s!"if let {variant}({bindingName}) = {recvSnip} \x7b {fnSnip}(...) \x7d",
           applicability := Applicability.unspecified }
  else
    match unit_closure fn_arg with
    | some (binding, closure_expr) =>
      let msg := suggestion_msg "closure" map_type
      let patSnip := snippet ctx binding.pat.span "_"
      let recvSnip := snippet ctx var_arg.span "_"
      match reduce_unit_expression closure_expr with
      | some reducedSpan =>
        let redSnip := snippet ctx reducedSpan "_"
        some { lint := lint, anchorSpan := expr.span, msg := msg,
               suggSpan := stmt.span,
               sugg := s!"if let {variant}({patSnip}) = {recvSnip} \x7b {redSnip} \x7d",
               applicability := Applicability.machineApplicable }
      | none =>
        some { lint := lint, anchorSpan := expr.span, msg := msg,
               suggSpan := stmt.span,
               sugg := s!"if let {variant}({patSnip}) = {recvSnip} \x7b ... \x7d",
               applicability := Applicability.unspecified }
    | none => none

/-- `impl LateLintPass for MapUnit`, `fn check_stmt` (`map_unit_fn.rs:242`):
skip macro-expanded statements; otherwise, for a semicolon-terminated
expression-statement whose expression is a `map` method call, run
`lint_map_unit_fn` on that call's argument list. -/
def check_stmt (ctx : Context) (stmt : Stmt) : Option Diag :=
  if ctx.fromExpansion stmt.span then none
  else
    match stmt.node with
    | .semi expr =>
      match method_chain_args expr ["map"] with
      | some arglists =>
        match arglists.head? with
        | some args => lint_map_unit_fn ctx stmt expr args
        | none => none
      | none => none
    | _ => none

/-- A trivial block `\x7b X \x7d` wrapping an expression: a unit-typed
block with no statements and `X` as its trailing expression. -/
def trivialWrap (wsp : Span) (e : Expr) : Expr :=
  Expr.block wsp (Ty.tuple []) [] (some e)

/-- The source content denoted by `reduce_unit_expression`'s output span,
re-wrapped in an equivalent trivial block: a call or method call is
itself wrapped as a trivial block; a `\x7b X \x7d` block delegates to its
trailing expression; a single local or semicolon-terminated statement is
put back into a fresh unit block (its denoted text includes the
statement); a plain expression-statement's denoted text is its inner
expression, wrapped as a trivial block; anything else (shapes on which
reduction returns none) has no rewrap. -/
def denoted_rewrap (wsp : Span) (e : Expr) : Option Expr :=
  match e with
  | .call sp ty f args => some (trivialWrap wsp (.call sp ty f args))
  | .methodCall sp ty nm args => some (trivialWrap wsp (.methodCall sp ty nm args))
  | .block _ _ [] (some inner) => denoted_rewrap wsp inner
  | .block _ _ [Stmt.mk ssp k] none =>
    (match k with
     | .localStmt lsp =>
       some (Expr.block wsp (Ty.tuple []) [Stmt.mk ssp (StmtKind.localStmt lsp)] none)
     | .exprStmt ie => some (trivialWrap wsp ie)
     | .semi ie =>
       some (Expr.block wsp (Ty.tuple []) [Stmt.mk ssp (StmtKind.semi ie)] none)
     | .item => none)
  | _ => none

/-- Whether the content reached by peeling trivial blocks avoids the one
shape on which re-reduction loses the span: a plain expression-statement
whose inner expression is not itself a unit call or method call. -/
def stmt_content_reducible (e : Expr) : Bool :=
  match e with
  | .block _ _ [] (some inner) => stmt_content_reducible inner
  | .block _ _ [Stmt.mk _ (.exprStmt ie)] none =>
    (match ie with
     | .call _ _ _ _ => is_unit_expression ie
     | .methodCall _ _ _ _ => is_unit_expression ie
     | _ => false)
  | _ => true

/-! ## Concrete fixtures used by witnesses and counterexamples -/

/-- A context in which no span is macro-expanded and no snippet is
available (snippets degrade to the fallback placeholder). -/
def emptyCtx : Context := ⟨fun _ => false, fun _ => none⟩

/-- A context in which every span is macro-expanded. -/
def allMacroCtx : Context := ⟨fun _ => true, fun _ => none⟩

/-- A context with a small concrete source map: span 1 covers `x`
(a receiver), span 2 covers `s` (a closure parameter pattern), span 3
covers `f(s)` (a closure body call), span 6 covers `f` (a named mapper
function), span 7 covers `x.field` (a field-access receiver).  No span
is macro-expanded. -/
def snippetCtx : Context :=
  ⟨fun _ => false,
   fun sp =>
     if sp = 1 then some "x"
     else if sp = 2 then some "s"
     else if sp = 3 then some "f(s)"
     else if sp = 6 then some "f"
     else if sp = 7 then some "x.field"
     else none⟩

/-! ## Theorems -/

/-- C2: `is_unit_type` returns true iff the type is the empty tuple type
or the never type; in particular it is false on every tuple with at least
one field and on every other type shape.  (Purity and totality hold by
construction: `is_unit_type` is a total function.) -/
theorem is_unit_type_spec :
    (∀ t : Ty, is_unit_type t = true ↔ t = Ty.tuple [] ∨ t = Ty.never)
    ∧ (∀ (f : Ty) (fs : List Ty), is_unit_type (Ty.tuple (f :: fs)) = false) := by
  constructor
  · intro t
    cases t with
    | tuple fields => cases fields <;> simp [is_unit_type]
    | never => simp [is_unit_type]
    | fnDef s => simp [is_unit_type]
    | adt p => simp [is_unit_type]
    | other => simp [is_unit_type]
  · intro f fs
    simp [is_unit_type]

/-- Helper: the unit-likeness guard at the top of
`reduce_unit_expression` short-circuits to `none`. -/
theorem reduce_none_of_not_unit (e : Expr)
    (h : is_unit_expression e = false) :
    reduce_unit_expression e = none := by
  unfold reduce_unit_expression
  simp [h]

/-- C10: `reduce_unit_expression` re-checks unit-likeness as its first
step, so on any expression whose type is not unit-like it returns `none`
(totality over arbitrary expressions holds by construction). -/
theorem reduce_unit_expression_non_unit (e : Expr)
    (h : is_unit_expression e = false) :
    reduce_unit_expression e = none :=
  reduce_none_of_not_unit e h

/-- Witness for C10 at a concrete non-unit expression. -/
theorem reduce_unit_expression_non_unit_witness :
    is_unit_expression (Expr.other 0 Ty.other) = false
      ∧ reduce_unit_expression (Expr.other 0 Ty.other) = none :=
  ⟨rfl, reduce_unit_expression_non_unit (Expr.other 0 Ty.other) rfl⟩

/-- C6: for a statement whose span originates from macro expansion,
`check_stmt` emits no diagnostic, regardless of the statement's content
(the macro-origin check is the first thing `check_stmt` does). -/
theorem check_stmt_macro_skip (ctx : Context) (stmt : Stmt)
    (h : ctx.fromExpansion stmt.span = true) :
    check_stmt ctx stmt = none := by
  unfold check_stmt
  simp [h]

/-- Witness for C6: a concrete macro-expanded statement (with the very
content that would otherwise be linted) yields no diagnostic. -/
theorem check_stmt_macro_skip_witness :
    allMacroCtx.fromExpansion (Stmt.span (Stmt.mk 0 (StmtKind.semi
        (Expr.methodCall 1 Ty.other "map"
          [Expr.pathExpr 2 (Ty.adt OPTION_PATH),
           Expr.pathExpr 3 (Ty.fnDef (some (Ty.tuple [])))])))) = true
    ∧ check_stmt allMacroCtx (Stmt.mk 0 (StmtKind.semi
        (Expr.methodCall 1 Ty.other "map"
          [Expr.pathExpr 2 (Ty.adt OPTION_PATH),
           Expr.pathExpr 3 (Ty.fnDef (some (Ty.tuple [])))]))) = none :=
  ⟨rfl, check_stmt_macro_skip allMacroCtx _ rfl⟩

/-- C7: the container classification is mutually exclusive (no type
matches both the `Option` and the `Result` path), and when the receiver's
type matches neither shape, `lint_map_unit_fn` emits no diagnostic —
whatever the mapper argument is. -/
theorem container_kind_spec :
    (∀ t : Ty, ¬(match_type t OPTION_PATH = true ∧ match_type t RESULT_PATH = true))
    ∧ (∀ (ctx : Context) (stmt : Stmt) (expr var_arg : Expr) (rest : List Expr),
        match_type var_arg.ty OPTION_PATH = false →
        match_type var_arg.ty RESULT_PATH = false →
        lint_map_unit_fn ctx stmt expr (var_arg :: rest) = none) := by
  constructor
  · intro t h
    obtain ⟨h1, h2⟩ := h
    cases t <;> simp [match_type] at h1 h2
    subst h1
    simp [OPTION_PATH, RESULT_PATH] at h2
  · intro ctx stmt expr var_arg rest h1 h2
    unfold lint_map_unit_fn
    simp [h1, h2]

/-- Witness for C7 on a concrete receiver of neither container shape. -/
theorem container_kind_spec_witness :
    match_type (Expr.ty (Expr.pathExpr 1 (Ty.adt ["alloc", "vec", "Vec"]))) OPTION_PATH = false
    ∧ match_type (Expr.ty (Expr.pathExpr 1 (Ty.adt ["alloc", "vec", "Vec"]))) RESULT_PATH = false
    ∧ lint_map_unit_fn emptyCtx (Stmt.mk 0 StmtKind.item) (Expr.other 9 Ty.other)
        [Expr.pathExpr 1 (Ty.adt ["alloc", "vec", "Vec"]),
         Expr.pathExpr 2 (Ty.fnDef (some (Ty.tuple [])))] = none :=
  ⟨rfl, rfl,
   container_kind_spec.2 emptyCtx (Stmt.mk 0 StmtKind.item) (Expr.other 9 Ty.other)
     (Expr.pathExpr 1 (Ty.adt ["alloc", "vec", "Vec"]))
     [Expr.pathExpr 2 (Ty.fnDef (some (Ty.tuple [])))] rfl rfl⟩

/-- C5: `is_unit_function` holds iff the expression's type is a function
definition whose signature is concrete (no bound type variables) and
whose declared return type is unit-like; consequently an `x.map(f)`
statement where `f` is a function reference returning a non-empty tuple
never produces a diagnostic. -/
theorem is_unit_function_spec :
    (∀ e : Expr, is_unit_function e = true ↔
        ∃ output, e.ty = Ty.fnDef (some output) ∧ is_unit_type output = true)
    ∧ (∀ (ctx : Context) (stmtSp mspan : Span) (mty : Ty) (recv : Expr)
         (fsp : Span) (t : Ty) (ts : List Ty),
        check_stmt ctx (Stmt.mk stmtSp (StmtKind.semi (Expr.methodCall mspan mty "map"
          [recv, Expr.pathExpr fsp (Ty.fnDef (some (Ty.tuple (t :: ts))))]))) = none) := by
  constructor
  · intro e
    unfold is_unit_function
    cases hty : e.ty with
    | tuple fields => simp
    | never => simp
    | fnDef s =>
      cases s with
      | none => simp
      | some output =>
        constructor
        · intro h
          exact ⟨output, rfl, h⟩
        · rintro ⟨o, ho, hu⟩
          obtain rfl : output = o := by
            injection ho with h1
            injection h1
          exact hu
    | adt p => simp
    | other => simp
  · intro ctx stmtSp mspan mty recv fsp t ts
    unfold check_stmt
    by_cases hmac : ctx.fromExpansion (Stmt.span (Stmt.mk stmtSp (StmtKind.semi (Expr.methodCall mspan mty "map"
          [recv, Expr.pathExpr fsp (Ty.fnDef (some (Ty.tuple (t :: ts))))])))) = true
    · simp [hmac]
    · simp only [Bool.not_eq_true] at hmac
      simp only [hmac, Bool.false_eq_true, if_false, Stmt.node]
      simp only [method_chain_args, method_chain_args_go, List.reverse_cons,
        List.reverse_nil, List.nil_append, if_pos, List.head?]
      unfold lint_map_unit_fn
      by_cases h1 : match_type recv.ty OPTION_PATH = true
      · simp [h1, is_unit_function, is_unit_expression, is_unit_type, Expr.ty, unit_closure]
      · by_cases h2 : match_type recv.ty RESULT_PATH = true
        · simp [h1, h2, is_unit_function, is_unit_expression, is_unit_type, Expr.ty, unit_closure]
        · simp [h1, h2]

/-- Witness for C5: a concrete unit function classifies true, and a
concrete `x.map(f)` with `f` returning a one-field tuple yields no
diagnostic. -/
theorem is_unit_function_spec_witness :
    is_unit_function (Expr.pathExpr 2 (Ty.fnDef (some (Ty.tuple [])))) = true
    ∧ check_stmt emptyCtx (Stmt.mk 0 (StmtKind.semi (Expr.methodCall 1 Ty.other "map"
        [Expr.pathExpr 3 (Ty.adt OPTION_PATH),
         Expr.pathExpr 2 (Ty.fnDef (some (Ty.tuple [Ty.other])))]))) = none :=
  ⟨(is_unit_function_spec.1 (Expr.pathExpr 2 (Ty.fnDef (some (Ty.tuple []))))).mpr
     ⟨Ty.tuple [], rfl, rfl⟩,
   is_unit_function_spec.2 emptyCtx 0 1 Ty.other (Expr.pathExpr 3 (Ty.adt OPTION_PATH))
     2 Ty.other []⟩

/-- C8: `unit_closure` returns the pair (first parameter binding, body
expression) iff the expression is a closure with exactly one declared
parameter, a unit-like body, and an obtainable first parameter pattern;
on any failed condition it returns `none`.  (No mutation is possible:
the function is pure.) -/
theorem unit_closure_spec (e : Expr) (p : Arg) (b : Expr) :
    unit_closure e = some (p, b) ↔
      ∃ (sp : Span) (ty : Ty) (args : List Arg),
        e = Expr.closure sp ty 1 args b
        ∧ is_unit_expression b = true
        ∧ args.head? = some p := by
  cases e with
  | closure sp ty numInputs args body =>
    unfold unit_closure
    dsimp only
    constructor
    · intro h
      by_cases hn : numInputs = 1
      · rw [if_pos hn] at h
        by_cases hu : is_unit_expression body
        · rw [if_pos hu] at h
          cases hh : args.head? with
          | none => rw [hh] at h; cases h
          | some binding =>
            rw [hh] at h
            obtain ⟨rfl, rfl⟩ : binding = p ∧ body = b := by
              injection h with h1
              exact ⟨congrArg Prod.fst h1, congrArg Prod.snd h1⟩
            subst hn
            exact ⟨sp, ty, args, rfl, hu, hh⟩
        · rw [if_neg hu] at h; cases h
      · rw [if_neg hn] at h; cases h
    · rintro ⟨sp2, ty2, args2, heq, hu, hh⟩
      obtain ⟨rfl, rfl, rfl, rfl, rfl⟩ :
          sp = sp2 ∧ ty = ty2 ∧ numInputs = 1 ∧ args = args2 ∧ body = b := by
        injection heq with h1 h2 h3 h4 h5
        exact ⟨h1, h2, h3, h4, h5⟩
      rw [if_pos rfl, if_pos hu, hh]
  | call sp ty f args => simp [unit_closure]
  | methodCall sp ty nm args => simp [unit_closure]
  | block sp ty stmts tail => simp [unit_closure]
  | fieldAcc sp ty => simp [unit_closure]
  | pathExpr sp ty => simp [unit_closure]
  | other sp ty => simp [unit_closure]

/-- Witness for C8: a concrete one-parameter closure with a unit body. -/
theorem unit_closure_spec_witness :
    unit_closure (Expr.closure 0 Ty.other 1 [Arg.mk (Pat.mk 7)]
        (Expr.call 8 (Ty.tuple []) (Expr.other 9 Ty.other) []))
      = some (Arg.mk (Pat.mk 7), Expr.call 8 (Ty.tuple []) (Expr.other 9 Ty.other) []) :=
  (unit_closure_spec (Expr.closure 0 Ty.other 1 [Arg.mk (Pat.mk 7)]
      (Expr.call 8 (Ty.tuple []) (Expr.other 9 Ty.other) []))
    (Arg.mk (Pat.mk 7)) (Expr.call 8 (Ty.tuple []) (Expr.other 9 Ty.other) [])).mpr
    ⟨0, Ty.other, [Arg.mk (Pat.mk 7)], rfl, rfl, rfl⟩

/-- C3: case analysis of `reduce_unit_expression` on unit-like
expressions.  A block with zero statements and a trailing expression
recurses into the trailing expression; a block with exactly one statement
and no trailing expression yields the span chosen by the statement's
kind (local declaration: the local's own span; plain expression
statement: the inner expression's span; semicolon-terminated statement:
the whole statement's span; item statement: none); every other block
shape yields none; call and method-call expressions yield their own
span; every other expression kind yields none. -/
theorem reduce_unit_expression_spec :
    (∀ (sp : Span) (ty : Ty) (f : Expr) (args : List Expr), is_unit_type ty = true →
       reduce_unit_expression (Expr.call sp ty f args) = some sp)
    ∧ (∀ (sp : Span) (ty : Ty) (nm : String) (args : List Expr), is_unit_type ty = true →
       reduce_unit_expression (Expr.methodCall sp ty nm args) = some sp)
    ∧ (∀ (sp : Span) (ty : Ty) (inner : Expr), is_unit_type ty = true →
       reduce_unit_expression (Expr.block sp ty [] (some inner)) = reduce_unit_expression inner)
    ∧ (∀ (sp stmtSp localSpan : Span) (ty : Ty), is_unit_type ty = true →
       reduce_unit_expression
         (Expr.block sp ty [Stmt.mk stmtSp (StmtKind.localStmt localSpan)] none) = some localSpan)
    ∧ (∀ (sp stmtSp : Span) (ty : Ty) (e : Expr), is_unit_type ty = true →
       reduce_unit_expression
         (Expr.block sp ty [Stmt.mk stmtSp (StmtKind.exprStmt e)] none) = some e.span)
    ∧ (∀ (sp stmtSp : Span) (ty : Ty) (e : Expr), is_unit_type ty = true →
       reduce_unit_expression
         (Expr.block sp ty [Stmt.mk stmtSp (StmtKind.semi e)] none) = some stmtSp)
    ∧ (∀ (sp stmtSp : Span) (ty : Ty), is_unit_type ty = true →
       reduce_unit_expression
         (Expr.block sp ty [Stmt.mk stmtSp StmtKind.item] none) = none)
    ∧ (∀ (sp : Span) (ty : Ty) (s1 s2 : Stmt) (rest : List Stmt) (tail : Option Expr),
       reduce_unit_expression (Expr.block sp ty (s1 :: s2 :: rest) tail) = none)
    ∧ (∀ (sp : Span) (ty : Ty) (s : Stmt) (rest : List Stmt) (tail : Expr),
       reduce_unit_expression (Expr.block sp ty (s :: rest) (some tail)) = none)
    ∧ (∀ (sp : Span) (ty : Ty) (n : Nat) (args : List Arg) (body : Expr),
       reduce_unit_expression (Expr.closure sp ty n args body) = none)
    ∧ (∀ (sp : Span) (ty : Ty), reduce_unit_expression (Expr.fieldAcc sp ty) = none)
    ∧ (∀ (sp : Span) (ty : Ty), reduce_unit_expression (Expr.pathExpr sp ty) = none)
    ∧ (∀ (sp : Span) (ty : Ty), reduce_unit_expression (Expr.other sp ty) = none) := by
  refine ⟨?_, ?_, ?_, ?_, ?_, ?_, ?_, ?_, ?_, ?_, ?_, ?_, ?_⟩
  · intro sp ty f args h
    unfold reduce_unit_expression
    simp [is_unit_expression, Expr.ty, h]
  · intro sp ty nm args h
    unfold reduce_unit_expression
    simp [is_unit_expression, Expr.ty, h]
  · intro sp ty inner h
    conv_lhs => rw [reduce_unit_expression.eq_def]
    simp [is_unit_expression, Expr.ty, h]
  · intro sp stmtSp localSpan ty h
    unfold reduce_unit_expression
    simp [is_unit_expression, Expr.ty, h]
  · intro sp stmtSp ty e h
    unfold reduce_unit_expression
    simp [is_unit_expression, Expr.ty, h]
  · intro sp stmtSp ty e h
    unfold reduce_unit_expression
    simp [is_unit_expression, Expr.ty, h]
  · intro sp stmtSp ty h
    unfold reduce_unit_expression
    simp [is_unit_expression, Expr.ty, h]
  · intro sp ty s1 s2 rest tail
    unfold reduce_unit_expression
    by_cases h : is_unit_type ty = true
    · simp [is_unit_expression, Expr.ty, h]
    · simp only [Bool.not_eq_true] at h
      simp [is_unit_expression, Expr.ty, h]
  · intro sp ty s rest tail
    unfold reduce_unit_expression
    by_cases h : is_unit_type ty = true
    · cases rest <;> simp [is_unit_expression, Expr.ty, h]
    · simp only [Bool.not_eq_true] at h
      simp [is_unit_expression, Expr.ty, h]
  · intro sp ty n args body
    unfold reduce_unit_expression
    by_cases h : is_unit_type ty = true
    · simp [is_unit_expression, Expr.ty, h]
    · simp only [Bool.not_eq_true] at h
      simp [is_unit_expression, Expr.ty, h]
  · intro sp ty
    unfold reduce_unit_expression
    by_cases h : is_unit_type ty = true
    · simp [is_unit_expression, Expr.ty, h]
    · simp only [Bool.not_eq_true] at h
      simp [is_unit_expression, Expr.ty, h]
  · intro sp ty
    unfold reduce_unit_expression
    by_cases h : is_unit_type ty = true
    · simp [is_unit_expression, Expr.ty, h]
    · simp only [Bool.not_eq_true] at h
      simp [is_unit_expression, Expr.ty, h]
  · intro sp ty
    unfold reduce_unit_expression
    by_cases h : is_unit_type ty = true
    · simp [is_unit_expression, Expr.ty, h]
    · simp only [Bool.not_eq_true] at h
      simp [is_unit_expression, Expr.ty, h]

/-- Witness for C3: concrete instances of the call case, the
single-semicolon-statement case and the two-statement case. -/
theorem reduce_unit_expression_spec_witness :
    reduce_unit_expression
        (Expr.call 5 (Ty.tuple []) (Expr.other 0 Ty.other) []) = some 5
    ∧ reduce_unit_expression
        (Expr.block 6 (Ty.tuple [])
          [Stmt.mk 7 (StmtKind.semi (Expr.call 8 (Ty.tuple []) (Expr.other 0 Ty.other) []))]
          none) = some 7
    ∧ reduce_unit_expression
        (Expr.block 6 (Ty.tuple [])
          [Stmt.mk 7 StmtKind.item, Stmt.mk 9 StmtKind.item] none) = none :=
  ⟨reduce_unit_expression_spec.1 5 (Ty.tuple []) (Expr.other 0 Ty.other) [] rfl,
   reduce_unit_expression_spec.2.2.2.2.2.1 6 7 (Ty.tuple [])
     (Expr.call 8 (Ty.tuple []) (Expr.other 0 Ty.other) []) rfl,
   reduce_unit_expression_spec.2.2.2.2.2.2.2.1 6 (Ty.tuple [])
     (Stmt.mk 7 StmtKind.item) (Stmt.mk 9 StmtKind.item) [] none⟩

/-- C1: for a statement that reaches the closure case (non-macro
semicolon statement whose expression is a `map` method call, receiver
classified `Option` or `Result`, mapper a one-parameter unit-returning
closure), the emitted diagnostic is anchored at the map-expression span,
its suggestion replaces the whole statement span, and the suggestion is
`if let <Some|Ok>(<parameter pattern snippet>) = <receiver snippet>
\x7b <reduced snippet> \x7d` tagged machine-applicable when the reducer
yields a span, and `... \x7b ... \x7d` tagged `Unspecified` when it
yields none. -/
theorem closure_case_diag (ctx : Context) (stmtSp mspan : Span) (mty : Ty)
    (recv cl : Expr) (binding : Arg) (body : Expr)
    (hmac : ctx.fromExpansion stmtSp = false)
    (hcont : match_type recv.ty OPTION_PATH = true
      ∨ (match_type recv.ty OPTION_PATH = false ∧ match_type recv.ty RESULT_PATH = true))
    (hfn : is_unit_function cl = false)
    (hcl : unit_closure cl = some (binding, body)) :
    check_stmt ctx (Stmt.mk stmtSp (StmtKind.semi (Expr.methodCall mspan mty "map" [recv, cl])))
      = some
        { lint := if match_type recv.ty OPTION_PATH then Lint.optionMapUnitFn
                  else Lint.resultMapUnitFn,
          anchorSpan := mspan,
          msg := suggestion_msg "closure"
                   (if match_type recv.ty OPTION_PATH then "Option" else "Result"),
          suggSpan := stmtSp,
          sugg :=
            match reduce_unit_expression body with
            | some reducedSpan =>
                "if let " ++ (if match_type recv.ty OPTION_PATH then "Some" else "Ok")
                  ++ "(" ++ snippet ctx binding.pat.span "_" ++ ") = "
                  ++ snippet ctx recv.span "_" ++ " \x7b "
                  ++ snippet ctx reducedSpan "_" ++ " \x7d"
            | none =>
                "if let " ++ (if match_type recv.ty OPTION_PATH then "Some" else "Ok")
                  ++ "(" ++ snippet ctx binding.pat.span "_" ++ ") = "
                  ++ snippet ctx recv.span "_" ++ " \x7b ... \x7d",
          applicability :=
            match reduce_unit_expression body with
            | some _ => Applicability.machineApplicable
            | none => Applicability.unspecified } := by
  rcases hcont with h1 | ⟨h1, h2⟩
  · cases hred : reduce_unit_expression body with
    | some reducedSpan =>
      simp [check_stmt, lint_map_unit_fn, method_chain_args, method_chain_args_go,
        Stmt.span, Stmt.node, hmac, h1, hfn, hcl, hred]
      exact ⟨rfl, rfl⟩
    | none =>
      simp [check_stmt, lint_map_unit_fn, method_chain_args, method_chain_args_go,
        Stmt.span, Stmt.node, hmac, h1, hfn, hcl, hred]
      exact ⟨rfl, rfl⟩
  · cases hred : reduce_unit_expression body with
    | some reducedSpan =>
      simp [check_stmt, lint_map_unit_fn, method_chain_args, method_chain_args_go,
        Stmt.span, Stmt.node, hmac, h1, h2, hfn, hcl, hred]
      exact ⟨rfl, rfl⟩
    | none =>
      simp [check_stmt, lint_map_unit_fn, method_chain_args, method_chain_args_go,
        Stmt.span, Stmt.node, hmac, h1, h2, hfn, hcl, hred]
      exact ⟨rfl, rfl⟩

/-- Witness for C1: a concrete `x.map(|s| f(s));` statement over an
`Option` receiver yields the machine-applicable suggestion
`if let Some(s) = x \x7b f(s) \x7d` anchored at the map expression and
replacing the statement span. -/
theorem closure_case_diag_witness :
    check_stmt snippetCtx (Stmt.mk 0 (StmtKind.semi (Expr.methodCall 5 Ty.other "map"
        [Expr.pathExpr 1 (Ty.adt OPTION_PATH),
         Expr.closure 4 Ty.other 1 [Arg.mk (Pat.mk 2)]
           (Expr.call 3 (Ty.tuple []) (Expr.other 9 Ty.other) [])])))
      = some ⟨Lint.optionMapUnitFn, 5,
          "called `map(f)` on an Option value where `f` is a unit closure", 0,
          "if let Some(s) = x \x7b f(s) \x7d", Applicability.machineApplicable⟩ :=
  (closure_case_diag snippetCtx 0 5 Ty.other
      (Expr.pathExpr 1 (Ty.adt OPTION_PATH))
      (Expr.closure 4 Ty.other 1 [Arg.mk (Pat.mk 2)]
        (Expr.call 3 (Ty.tuple []) (Expr.other 9 Ty.other) []))
      (Arg.mk (Pat.mk 2))
      (Expr.call 3 (Ty.tuple []) (Expr.other 9 Ty.other) [])
      rfl (Or.inl rfl) rfl rfl).trans (by decide)

/-- Counterexample for C4: at a concrete `x.map(f);` statement (Option
receiver, unit function `f`) the emitted message is
"called `map(f)` on an Option value where `f` is a unit function" —
with backticks around the code fragments — and is not the claim's
plain-text message, under either reading of the substituted container
name ("Option" or "Optional"). -/
theorem named_function_msg_counterexample :
    (check_stmt snippetCtx (Stmt.mk 0 (StmtKind.semi (Expr.methodCall 5 Ty.other "map"
        [Expr.pathExpr 1 (Ty.adt OPTION_PATH),
         Expr.pathExpr 6 (Ty.fnDef (some (Ty.tuple [])))])))).map Diag.msg
      = some "called `map(f)` on an Option value where `f` is a unit function"
    ∧ (check_stmt snippetCtx (Stmt.mk 0 (StmtKind.semi (Expr.methodCall 5 Ty.other "map"
        [Expr.pathExpr 1 (Ty.adt OPTION_PATH),
         Expr.pathExpr 6 (Ty.fnDef (some (Ty.tuple [])))])))).map Diag.msg
      ≠ some "called map(f) on an Option value where f is a unit function"
    ∧ (check_stmt snippetCtx (Stmt.mk 0 (StmtKind.semi (Expr.methodCall 5 Ty.other "map"
        [Expr.pathExpr 1 (Ty.adt OPTION_PATH),
         Expr.pathExpr 6 (Ty.fnDef (some (Ty.tuple [])))])))).map Diag.msg
      ≠ some "called map(f) on an Optional value where f is a unit function" :=
  ⟨by decide, by decide, by decide⟩

/-- C4 (amended): for a statement whose mapper argument is a
unit-returning named function reference, the diagnostic message is
"called `map(f)` on an <Option|Result> value where `f` is a unit
function" (backticks around the code fragments, container name `Option`
or `Result`), and the suggested edit is
`if let <Some|Ok>(<synthesized-name>) = <receiver snippet>
\x7b <mapper snippet>(...) \x7d` tagged `Unspecified` (hint-only),
anchored at the map-expression span and replacing the whole statement
span; the synthesized name follows `let_binding_name`. -/
theorem named_function_case_diag (ctx : Context) (stmtSp mspan : Span) (mty : Ty)
    (recv fnArg : Expr)
    (hmac : ctx.fromExpansion stmtSp = false)
    (hcont : match_type recv.ty OPTION_PATH = true
      ∨ (match_type recv.ty OPTION_PATH = false ∧ match_type recv.ty RESULT_PATH = true))
    (hfn : is_unit_function fnArg = true) :
    check_stmt ctx (Stmt.mk stmtSp (StmtKind.semi (Expr.methodCall mspan mty "map" [recv, fnArg])))
      = some
        { lint := if match_type recv.ty OPTION_PATH then Lint.optionMapUnitFn
                  else Lint.resultMapUnitFn,
          anchorSpan := mspan,
          msg := "called `map(f)` on an "
                  ++ (if match_type recv.ty OPTION_PATH then "Option" else "Result")
                  ++ " value where `f` is a unit function",
          suggSpan := stmtSp,
          sugg := "if let " ++ (if match_type recv.ty OPTION_PATH then "Some" else "Ok")
                  ++ "(" ++ let_binding_name ctx recv ++ ") = "
                  ++ snippet ctx recv.span "_" ++ " \x7b "
                  ++ snippet ctx fnArg.span "_" ++ "(...) \x7d",
          applicability := Applicability.unspecified } := by
  rcases hcont with h1 | ⟨h1, h2⟩
  · simp [check_stmt, lint_map_unit_fn, method_chain_args, method_chain_args_go,
      Stmt.span, Stmt.node, hmac, h1, hfn, suggestion_msg]
    exact ⟨rfl, rfl, rfl⟩
  · simp [check_stmt, lint_map_unit_fn, method_chain_args, method_chain_args_go,
      Stmt.span, Stmt.node, hmac, h1, h2, hfn, suggestion_msg]
    exact ⟨rfl, rfl, rfl⟩

/-- Witness for C4 (amended): the concrete `x.map(f);` statement yields
the hint-only suggestion `if let Some(_x) = x \x7b f(...) \x7d` with the
synthesized name `_x` derived from the bare-name receiver `x`. -/
theorem named_function_case_diag_witness :
    check_stmt snippetCtx (Stmt.mk 0 (StmtKind.semi (Expr.methodCall 5 Ty.other "map"
        [Expr.pathExpr 1 (Ty.adt OPTION_PATH),
         Expr.pathExpr 6 (Ty.fnDef (some (Ty.tuple [])))])))
      = some ⟨Lint.optionMapUnitFn, 5,
          "called `map(f)` on an Option value where `f` is a unit function", 0,
          "if let Some(_x) = x \x7b f(...) \x7d", Applicability.unspecified⟩ :=
  (named_function_case_diag snippetCtx 0 5 Ty.other
      (Expr.pathExpr 1 (Ty.adt OPTION_PATH))
      (Expr.pathExpr 6 (Ty.fnDef (some (Ty.tuple []))))
      rfl (Or.inl rfl) rfl).trans (by decide)

/-- Counterexample for C9: the unit block whose single statement is a
plain expression-statement over a non-call unit expression (e.g. a
closure body `\x7b if c \x7b f() \x7d \x7d` as stored in the tree:
an expression-statement holding a conditional) reduces to the inner
expression's span, but reducing that denoted expression re-wrapped in a
trivial block yields none, not the same span. -/
theorem reduce_idempotence_counterexample :
    reduce_unit_expression (Expr.block 0 (Ty.tuple [])
        [Stmt.mk 1 (StmtKind.exprStmt (Expr.other 2 (Ty.tuple [])))] none) = some 2
    ∧ denoted_rewrap 10 (Expr.block 0 (Ty.tuple [])
        [Stmt.mk 1 (StmtKind.exprStmt (Expr.other 2 (Ty.tuple [])))] none)
      = some (trivialWrap 10 (Expr.other 2 (Ty.tuple [])))
    ∧ reduce_unit_expression (trivialWrap 10 (Expr.other 2 (Ty.tuple []))) = none :=
  ⟨rfl, rfl, rfl⟩

/-- C9 (amended): reduction is idempotent on every output span except
those produced from a plain expression-statement whose inner expression
is not a unit call: whenever `reduce_unit_expression e` yields span `s`,
the content denoted by `s` re-wrapped in an equivalent trivial block is
`w`, and the peeled statement content (if any) is a unit call or method
call, reducing `w` yields `s` again. -/
theorem reduce_idempotence_amended (wsp : Span) (e : Expr) (w : Expr) (s : Span)
    (hred : reduce_unit_expression e = some s)
    (hw : denoted_rewrap wsp e = some w)
    (hcontent : stmt_content_reducible e = true) :
    reduce_unit_expression w = some s := by
  refine denoted_rewrap.induct wsp
      (fun t => ∀ (w2 : Expr) (s2 : Span),
        reduce_unit_expression t = some s2 →
        denoted_rewrap wsp t = some w2 →
        stmt_content_reducible t = true →
        reduce_unit_expression w2 = some s2)
      ?_ ?_ ?_ ?_ ?_ ?_ ?_ ?_ e w s hred hw hcontent
  · intro sp ty f args w2 s2 hred2 hw2 _
    by_cases hu : is_unit_expression (Expr.call sp ty f args) = true
    · rw [reduce_unit_expression.eq_def] at hred2
      simp [hu] at hred2
      simp only [denoted_rewrap] at hw2
      obtain rfl : trivialWrap wsp (Expr.call sp ty f args) = w2 := by
        injection hw2
      subst hred2
      rw [trivialWrap, reduce_unit_expression.eq_def]
      simp only [is_unit_expression, Expr.ty, is_unit_type, List.isEmpty_nil,
        Bool.not_true, Bool.false_eq_true, if_false]
      rw [reduce_unit_expression.eq_def]
      simp [hu]
    · simp only [Bool.not_eq_true] at hu
      rw [reduce_none_of_not_unit _ hu] at hred2
      cases hred2
  · intro sp ty nm args w2 s2 hred2 hw2 _
    by_cases hu : is_unit_expression (Expr.methodCall sp ty nm args) = true
    · rw [reduce_unit_expression.eq_def] at hred2
      simp [hu] at hred2
      simp only [denoted_rewrap] at hw2
      obtain rfl : trivialWrap wsp (Expr.methodCall sp ty nm args) = w2 := by
        injection hw2
      subst hred2
      rw [trivialWrap, reduce_unit_expression.eq_def]
      simp only [is_unit_expression, Expr.ty, is_unit_type, List.isEmpty_nil,
        Bool.not_true, Bool.false_eq_true, if_false]
      rw [reduce_unit_expression.eq_def]
      simp [hu]
    · simp only [Bool.not_eq_true] at hu
      rw [reduce_none_of_not_unit _ hu] at hred2
      cases hred2
  · intro sp ty inner ih w2 s2 hred2 hw2 hc2
    by_cases hu : is_unit_expression (Expr.block sp ty [] (some inner)) = true
    · have hredInner : reduce_unit_expression inner = some s2 := by
        rw [reduce_unit_expression.eq_def] at hred2
        simpa [hu] using hred2
      have hwInner : denoted_rewrap wsp inner = some w2 := by
        rw [denoted_rewrap.eq_def] at hw2
        exact hw2
      have hcInner : stmt_content_reducible inner = true := by
        rw [stmt_content_reducible.eq_def] at hc2
        exact hc2
      exact ih w2 s2 hredInner hwInner hcInner
    · simp only [Bool.not_eq_true] at hu
      rw [reduce_none_of_not_unit _ hu] at hred2
      cases hred2
  · intro sp ty ssp lsp w2 s2 hred2 hw2 _
    by_cases hu : is_unit_expression
        (Expr.block sp ty [Stmt.mk ssp (StmtKind.localStmt lsp)] none) = true
    · rw [reduce_unit_expression.eq_def] at hred2
      simp [hu] at hred2
      simp only [denoted_rewrap] at hw2
      obtain rfl : Expr.block wsp (Ty.tuple [])
          [Stmt.mk ssp (StmtKind.localStmt lsp)] none = w2 := by
        injection hw2
      subst hred2
      rw [reduce_unit_expression.eq_def]
      simp [is_unit_expression, Expr.ty, is_unit_type]
    · simp only [Bool.not_eq_true] at hu
      rw [reduce_none_of_not_unit _ hu] at hred2
      cases hred2
  · intro sp ty ssp ie w2 s2 hred2 hw2 hc2
    by_cases hu : is_unit_expression
        (Expr.block sp ty [Stmt.mk ssp (StmtKind.exprStmt ie)] none) = true
    · rw [reduce_unit_expression.eq_def] at hred2
      simp [hu] at hred2
      simp only [denoted_rewrap] at hw2
      obtain rfl : trivialWrap wsp ie = w2 := by injection hw2
      subst hred2
      rw [stmt_content_reducible.eq_def] at hc2
      rw [trivialWrap, reduce_unit_expression.eq_def]
      simp only [is_unit_expression, Expr.ty, is_unit_type, List.isEmpty_nil,
        Bool.not_true, Bool.false_eq_true, if_false]
      cases ie with
      | call csp cty cf cargs =>
        rw [reduce_unit_expression.eq_def]
        simp only at hc2
        simp [hc2, Expr.span]
      | methodCall csp cty cnm cargs =>
        rw [reduce_unit_expression.eq_def]
        simp only at hc2
        simp [hc2, Expr.span]
      | block a b c d => simp only at hc2; cases hc2
      | closure a b c d f => simp only at hc2; cases hc2
      | fieldAcc a b => simp only at hc2; cases hc2
      | pathExpr a b => simp only at hc2; cases hc2
      | other a b => simp only at hc2; cases hc2
    · simp only [Bool.not_eq_true] at hu
      rw [reduce_none_of_not_unit _ hu] at hred2
      cases hred2
  · intro sp ty ssp ie w2 s2 hred2 hw2 _
    by_cases hu : is_unit_expression
        (Expr.block sp ty [Stmt.mk ssp (StmtKind.semi ie)] none) = true
    · rw [reduce_unit_expression.eq_def] at hred2
      simp [hu] at hred2
      simp only [denoted_rewrap] at hw2
      obtain rfl : Expr.block wsp (Ty.tuple [])
          [Stmt.mk ssp (StmtKind.semi ie)] none = w2 := by
        injection hw2
      subst hred2
      rw [reduce_unit_expression.eq_def]
      simp [is_unit_expression, Expr.ty, is_unit_type]
    · simp only [Bool.not_eq_true] at hu
      rw [reduce_none_of_not_unit _ hu] at hred2
      cases hred2
  · intro sp ty ssp w2 s2 hred2 hw2 _
    exfalso
    by_cases hu : is_unit_expression
        (Expr.block sp ty [Stmt.mk ssp StmtKind.item] none) = true
    · rw [reduce_unit_expression.eq_def] at hred2
      simp [hu] at hred2
    · simp only [Bool.not_eq_true] at hu
      rw [reduce_none_of_not_unit _ hu] at hred2
      cases hred2
  · intro t h1 h2 h3 h4 w2 s2 hred2 hw2 hc2
    exfalso
    cases t with
    | call sp ty f args => exact h1 sp ty f args rfl
    | methodCall sp ty nm args => exact h2 sp ty nm args rfl
    | block sp ty stmts tail =>
      cases stmts with
      | nil =>
        cases tail with
        | none => simp [denoted_rewrap] at hw2
        | some inner => exact h3 sp ty inner rfl
      | cons st1 rest =>
        cases st1 with
        | mk ssp k =>
          cases rest with
          | nil =>
            cases tail with
            | none => exact h4 sp ty ssp k rfl
            | some inner => simp [denoted_rewrap] at hw2
          | cons st2 rest2 =>
            cases tail with
            | none => simp [denoted_rewrap] at hw2
            | some inner => simp [denoted_rewrap] at hw2
    | closure a b c d f => simp [denoted_rewrap] at hw2
    | fieldAcc a b => simp [denoted_rewrap] at hw2
    | pathExpr a b => simp [denoted_rewrap] at hw2
    | other a b => simp [denoted_rewrap] at hw2

/-- Witness for C9 (amended) at a concrete unit call wrapped in two
trivial blocks: reduction yields the call's span, and reducing the
re-wrapped denoted content yields the same span. -/
theorem reduce_idempotence_amended_witness :
    reduce_unit_expression (Expr.block 20 (Ty.tuple []) []
        (some (Expr.call 21 (Ty.tuple []) (Expr.other 22 Ty.other) []))) = some 21
    ∧ denoted_rewrap 30 (Expr.block 20 (Ty.tuple []) []
        (some (Expr.call 21 (Ty.tuple []) (Expr.other 22 Ty.other) [])))
      = some (trivialWrap 30 (Expr.call 21 (Ty.tuple []) (Expr.other 22 Ty.other) []))
    ∧ stmt_content_reducible (Expr.block 20 (Ty.tuple []) []
        (some (Expr.call 21 (Ty.tuple []) (Expr.other 22 Ty.other) []))) = true
    ∧ reduce_unit_expression
        (trivialWrap 30 (Expr.call 21 (Ty.tuple []) (Expr.other 22 Ty.other) [])) = some 21 :=
  ⟨rfl, rfl, rfl,
   reduce_idempotence_amended 30
     (Expr.block 20 (Ty.tuple []) []
       (some (Expr.call 21 (Ty.tuple []) (Expr.other 22 Ty.other) [])))
     (trivialWrap 30 (Expr.call 21 (Ty.tuple []) (Expr.other 22 Ty.other) []))
     21 rfl rfl rfl⟩
